import Mathlib

/-!
Verification of the admission/resilience control plane of the tempo proxy:
backoff calculator, retry controller, sliding-window rate limiter,
admission queue and session credential cache, shallowly embedded from the
TypeScript sources (src/retry.ts, src/auth.ts, src/logging.ts,
src/session.ts).  JavaScript numbers are modelled as ℚ where fractional
inputs matter and as Int / Nat elsewhere; platform primitives (fetch,
atob, JSON.parse) are oracle parameters.
-/

/-- JS Math.max on integers, written with an explicit comparison so that
it evaluates by kernel reduction. -/
def mathMaxI (a b : Int) : Int :=
  if a ≤ b then b else a

/-- JS Math.min on numbers (modelled as ℚ), written with an explicit
comparison so that it evaluates by kernel reduction. -/
def mathMinQ (a b : ℚ) : ℚ :=
  if a ≤ b then a else b

namespace Retry

/-- Embedding of calculateBackoff from src/retry.ts.  The attempt argument
is a JS number, modelled as ℚ; `Math.max(0, Math.floor(attempt))` becomes
`mathMaxI 0 ⌊attempt⌋`, and `Math.pow(2, safeAttempt)` is an exact power
since safeAttempt is a non-negative integer. -/
def calculateBackoff (attempt baseDelay maxDelay : ℚ) : ℚ :=
  let safeAttempt : Int := mathMaxI 0 ⌊attempt⌋
  let delay : ℚ := baseDelay * 2 ^ safeAttempt.toNat
  mathMinQ delay maxDelay

/-- Embedding of shouldRetry from src/retry.ts: no retry once attempts are
exhausted, otherwise retry exactly on status 0 (network error) or 5xx. -/
def shouldRetry (status attempt maxRetries : Int) : Bool :=
  if attempt ≥ maxRetries then false
  else decide (status = 0 ∨ (status ≥ 500 ∧ status < 600))

/-- Outcome of one fetch call as seen by fetchWithRetry: either a response
carrying a status code, or a thrown network error. -/
inductive FetchOutcome where
  | resp (status : Int)
  | netError
deriving DecidableEq

/-- Observable trace of one run of fetchWithRetry: how many times fetch was
called, the sleep delays in order, and the final result (some returned
status, or none for a thrown error). -/
structure RetryTrace where
  attempts : Nat
  delays : List ℚ
  result : Option Int
deriving DecidableEq

/-- One iteration step of the fetchWithRetry loop (src/retry.ts lines
72-104), fuel-indexed: fuel is the number of loop iterations still
permitted (maxRetries + 1 - attempt).  At the top of an iteration with
attempt > 0 the loop sleeps calculateBackoff (attempt - 1); then fetch
(the oracle) runs. -/
def fetchWithRetryGo (oracle : Nat → FetchOutcome) (maxRetries : Nat)
    (baseDelay maxDelay : ℚ) :
    Nat → Nat → Nat → List ℚ → RetryTrace
  | _, 0, attempts, delays =>
      -- loop exhausted: throw Upstream error
      ⟨attempts, delays, none⟩
  | attempt, fuel + 1, attempts, delays =>
      let delays := if attempt > 0
        then delays ++ [calculateBackoff (attempt - 1 : Nat) baseDelay maxDelay]
        else delays
      match oracle attempt with
      | FetchOutcome.resp status =>
          let attempts := attempts + 1
          -- response.ok (2xx) or client error 4xx: return immediately
          if (200 ≤ status ∧ status < 300) ∨ (400 ≤ status ∧ status < 500) then
            ⟨attempts, delays, some status⟩
          else if ¬ shouldRetry status attempt maxRetries then
            ⟨attempts, delays, some status⟩
          else
            fetchWithRetryGo oracle maxRetries baseDelay maxDelay
              (attempt + 1) fuel attempts delays
      | FetchOutcome.netError =>
          let attempts := attempts + 1
          if ¬ shouldRetry 0 attempt maxRetries then
            ⟨attempts, delays, none⟩
          else
            fetchWithRetryGo oracle maxRetries baseDelay maxDelay
              (attempt + 1) fuel attempts delays

/-- Embedding of fetchWithRetry from src/retry.ts: the for loop runs
attempt = 0 .. maxRetries, i.e. maxRetries + 1 iterations of fuel. -/
def fetchWithRetry (oracle : Nat → FetchOutcome) (maxRetries : Nat)
    (baseDelay maxDelay : ℚ) : RetryTrace :=
  fetchWithRetryGo oracle maxRetries baseDelay maxDelay 0 (maxRetries + 1) 0 []

end Retry

namespace RQueue

/-- Queue configuration from src/logging.ts (QueueConfig). -/
structure QueueConfig where
  maxConcurrent : Nat
  maxQueueSize : Nat
deriving DecidableEq

/-- Capacity error thrown by enqueue (class QueueFullError, src/logging.ts
lines 413-418). -/
structure QueueFullError where
  message : String
deriving DecidableEq

/-- State of one RequestQueue instance (src/logging.ts lines 275-280),
with tasks identified by the order in which enqueue received them
(nextId is the id the next enqueue will assign).  Besides the fields of
the class (pending = this.queue as the list of queued task ids,
activeCount), three ghost histories record the orderings the claims are
about: appendedOrder is the ids pushed onto the pending array by enqueue,
in order; promotedOrder is the ids removed from the pending array by
processNext, in order; startedOrder is the ids whose work function began
executing (immediately at enqueue, or on promotion), in order. -/
structure QueueState where
  pending : List Nat
  activeCount : Nat
  nextId : Nat
  appendedOrder : List Nat
  promotedOrder : List Nat
  startedOrder : List Nat
deriving DecidableEq

/-- The fresh state of a RequestQueue. -/
def initState : QueueState :=
  ⟨[], 0, 0, [], [], []⟩

/-- Embedding of RequestQueue.enqueue (src/logging.ts lines 295-316).
If the pending array is already at maxQueueSize the call throws
QueueFullError before touching any state; otherwise, with a free
concurrency slot the task starts executing immediately (executeTask
increments activeCount), and with no free slot the task is pushed onto
the tail of the pending array. -/
def enqueue (cfg : QueueConfig) (s : QueueState) :
    Option QueueFullError × QueueState :=
  if s.pending.length ≥ cfg.maxQueueSize then
    (some ⟨"Queue is full"⟩, s)
  else if s.activeCount < cfg.maxConcurrent then
    (none, { s with
      activeCount := s.activeCount + 1,
      startedOrder := s.startedOrder ++ [s.nextId],
      nextId := s.nextId + 1 })
  else
    (none, { s with
      pending := s.pending ++ [s.nextId],
      appendedOrder := s.appendedOrder ++ [s.nextId],
      nextId := s.nextId + 1 })

/-- Embedding of RequestQueue.processNext (src/logging.ts lines 338-361):
if the pending array is non-empty and a concurrency slot is free, shift
the head of the pending array and start it (activeCount increments). -/
def processNext (cfg : QueueConfig) (s : QueueState) : QueueState :=
  if s.pending.length = 0 ∨ s.activeCount ≥ cfg.maxConcurrent then s
  else
    match s.pending with
    | [] => s
    | id :: rest =>
        { s with
          pending := rest,
          activeCount := s.activeCount + 1,
          promotedOrder := s.promotedOrder ++ [id],
          startedOrder := s.startedOrder ++ [id] }

/-- An active task settling (success or failure): the finally blocks of
executeTask / processNext decrement activeCount and call processNext. -/
def complete (cfg : QueueConfig) (s : QueueState) : QueueState :=
  processNext cfg { s with activeCount := s.activeCount - 1 }

/-- Events driving a queue instance: an enqueue call, or the settling of
one active task. -/
inductive QOp where
  | enq
  | cpl
deriving DecidableEq

/-- Run a sequence of events against a queue state. -/
def runOps (cfg : QueueConfig) (ops : List QOp) (s : QueueState) : QueueState :=
  ops.foldl (fun s op =>
    match op with
    | QOp.enq => (enqueue cfg s).2
    | QOp.cpl => complete cfg s) s

end RQueue

namespace RL

/-- Rate limit configuration (RateLimitConfig, src/auth.ts). -/
structure RateLimitConfig where
  enabled : Bool
  windowMs : Int
  maxRequests : Int
deriving DecidableEq

/-- Result of a checkLimit call (RateLimitResult, src/auth.ts): allowed
flag, remaining quota, and the optional retryAfter hint in seconds. -/
structure RateLimitResult where
  allowed : Bool
  retryAfter : Option Int
  remaining : Int
deriving DecidableEq

/-- Math.ceil (a / 1000) on an integer number of milliseconds. -/
def ceilDivMs (a : Int) : Int :=
  -((-a).ediv 1000)

/-- The Map from client id to its recorded request timestamps
(this.requests in class RateLimiter), as an association list with Map.get
and Map.set semantics. -/
def RequestMap := List (String × List Int)
deriving DecidableEq

/-- Map.get: the first binding of the key, if any. -/
def mapGet (k : String) : RequestMap → Option (List Int)
  | [] => none
  | (k₂, v) :: rest => if k₂ = k then some v else mapGet k rest

/-- Map.set: replace the binding of the key, or append a new one. -/
def mapSet (k : String) (v : List Int) : RequestMap → RequestMap
  | [] => [(k, v)]
  | (k₂, v₂) :: rest =>
      if k₂ = k then (k, v) :: rest else (k₂, v₂) :: mapSet k v rest

/-- State of one RateLimiter instance: its configuration and the
per-client timestamp map. -/
structure RateLimiter where
  requests : RequestMap
  config : RateLimitConfig
deriving DecidableEq

/-- Embedding of RateLimiter.checkLimit (src/auth.ts lines 236-272) at
instant now.  The method only reads this.requests (the filtered window is
a local variable, never written back), so the state paired with the
result is the receiver itself. -/
def checkLimit (rl : RateLimiter) (clientId : String) (now : Int) :
    RateLimitResult × RateLimiter :=
  if rl.config.enabled = false then
    (⟨true, none, rl.config.maxRequests⟩, rl)
  else
    let windowStart := now - rl.config.windowMs
    let clientRequests := (mapGet clientId rl.requests).getD []
    let clientRequests := clientRequests.filter (fun r => windowStart < r)
    let requestCount : Int := clientRequests.length
    let remaining := mathMaxI 0 (rl.config.maxRequests - requestCount)
    if requestCount ≥ rl.config.maxRequests then
      let retryAfterMs := match clientRequests.head? with
        | some oldest => oldest + rl.config.windowMs - now
        | none => rl.config.windowMs
      let retryAfter := ceilDivMs retryAfterMs
      (⟨false, some (mathMaxI 1 retryAfter), 0⟩, rl)
    else
      (⟨true, none, remaining⟩, rl)

/-- Embedding of RateLimiter.recordRequest (src/auth.ts lines 278-293) at
instant now: prune the client's expired timestamps, append now, and write
the list back into the map.  No-op when disabled. -/
def recordRequest (rl : RateLimiter) (clientId : String) (now : Int) :
    RateLimiter :=
  if rl.config.enabled = false then rl
  else
    let windowStart := now - rl.config.windowMs
    let clientRequests := (mapGet clientId rl.requests).getD []
    let clientRequests := clientRequests.filter (fun r => windowStart < r)
    let clientRequests := clientRequests ++ [now]
    { rl with requests := mapSet clientId clientRequests rl.requests }

end RL

namespace Session

/-- Result of parseClientToken (ClientTokenPayload, src/session.ts). -/
structure ClientTokenPayload where
  userId : String
  clientId : String
deriving DecidableEq

/-- Abstraction of the JS object produced by JSON.parse on a JWT payload:
just the five fields parseClientToken reads, each possibly absent (or a
non-string / empty value, which the fallback chain treats alike). -/
structure JwtPayload where
  sub : Option String
  user_id : Option String
  client_id : Option String
  azp : Option String
  aud : Option String

/-- The JS expression a || b for string-valued a: an absent or empty
string is falsy and falls through to b. -/
def jsOr (a : Option String) (b : String) : String :=
  match a with
  | none => b
  | some s => if s = "" then b else s

/-- The padded standard base64 string parseClientToken builds from the
payload part of the token (src/session.ts lines 65-69): base64url
characters are mapped back and padding '=' is appended to a multiple of
four. -/
def paddedPayload (payloadBase64 : String) : String :=
  let base64 := (payloadBase64.replace ("-") ("+")).replace ("_") ("/")
  base64 ++ String.mk (List.replicate ((4 - base64.length % 4) % 4) '=')

/-- Embedding of parseClientToken (src/session.ts lines 52-83).  The
token is an Option String so that the JS null / undefined case (caught by
the !token guard together with the empty string) is representable; atob
and JSON.parse are platform primitives, passed as oracles returning none
exactly when the JS function throws (the surrounding try/catch then
returns the empty payload).  Every other failure is an explicit early
return of the empty payload. -/
def parseClientToken (atobFn : String → Option String)
    (parseJson : String → Option JwtPayload)
    (token : Option String) : ClientTokenPayload :=
  match token with
  | none => ⟨"", ""⟩
  | some t =>
    if t = "" then ⟨"", ""⟩
    else
      let parts := t.splitOn (".")
      if parts.length ≠ 3 then ⟨"", ""⟩
      else
        let padded := paddedPayload ((parts[1]?).getD "")
        match atobFn padded with
        | none => ⟨"", ""⟩
        | some payloadJson =>
          match parseJson payloadJson with
          | none => ⟨"", ""⟩
          | some payload =>
              ⟨jsOr payload.sub (jsOr payload.user_id ""),
               jsOr payload.client_id (jsOr payload.azp (jsOr payload.aud ""))⟩

/-- RETRY_CONFIG.maxRetries from src/session.ts. -/
def retryMaxRetries : Nat := 3

/-- Embedding of the session module's own calculateBackoff
(src/session.ts lines 90-93), which hard-codes RETRY_CONFIG
(baseDelayMs = 1000, maxDelayMs = 10000). -/
def calculateBackoff (attempt : Nat) : ℚ :=
  mathMinQ ((1000 : ℚ) * 2 ^ attempt) 10000

/-- Outcome of one iteration body of fetchSessionIdFromClerk as seen from
outside: either an active session id was obtained, or the iteration threw
(non-ok response, missing active session, network or parse error). -/
inductive ClerkOutcome where
  | ok (sessionId : String)
  | fail
deriving DecidableEq

/-- Observable trace of one fetchSessionIdFromClerk run: upstream
attempts made, sleep delays in order, and the result (some session id, or
none when the loop ends and the last error is rethrown). -/
structure ClerkTrace where
  attempts : Nat
  delays : List ℚ
  result : Option String
deriving DecidableEq

/-- One iteration of the fetchSessionIdFromClerk loop (src/session.ts
lines 114-149), fuel-indexed: the for loop runs attempt = 0 ..
RETRY_CONFIG.maxRetries - 1, and after a failed iteration it sleeps
calculateBackoff attempt only while attempt < maxRetries - 1. -/
def fetchSessionIdFromClerkGo (oracle : Nat → ClerkOutcome) :
    Nat → Nat → Nat → List ℚ → ClerkTrace
  | _, 0, attempts, delays => ⟨attempts, delays, none⟩
  | attempt, fuel + 1, attempts, delays =>
      match oracle attempt with
      | ClerkOutcome.ok sid => ⟨attempts + 1, delays, some sid⟩
      | ClerkOutcome.fail =>
          if attempt < retryMaxRetries - 1 then
            fetchSessionIdFromClerkGo oracle (attempt + 1) fuel (attempts + 1)
              (delays ++ [calculateBackoff attempt])
          else
            fetchSessionIdFromClerkGo oracle (attempt + 1) fuel (attempts + 1)
              delays

/-- Embedding of fetchSessionIdFromClerk (src/session.ts lines 109-152):
the loop performs at most RETRY_CONFIG.maxRetries iterations in total. -/
def fetchSessionIdFromClerk (oracle : Nat → ClerkOutcome) : ClerkTrace :=
  fetchSessionIdFromClerkGo oracle 0 retryMaxRetries 0 []

/-- The cached session entry (SessionCache, src/session.ts). -/
structure SessionCache where
  sessionId : String
  expiresAt : Int
deriving DecidableEq

/-- SESSION_CACHE_DURATION_MS from src/session.ts: five minutes. -/
def sessionCacheDurationMs : Int := 5 * 60 * 1000

/-- Embedding of getSessionId (src/session.ts lines 161-179) with the
module variable cachedSession passed as explicit state.  A valid cache
hit returns immediately; otherwise fetchSessionIdFromClerk runs, and only
on its success is cachedSession overwritten — a thrown fetch error
propagates before the assignment, leaving the prior entry in place. -/
def getSessionId (oracle : Nat → ClerkOutcome) (now : Int)
    (forceRefresh : Bool) (cached : Option SessionCache) :
    Option String × Option SessionCache :=
  let hit : Bool := !forceRefresh &&
    match cached with
    | some c => decide (now < c.expiresAt)
    | none => false
  if hit then
    (some ((Option.map SessionCache.sessionId cached).getD ""), cached)
  else
    match (fetchSessionIdFromClerk oracle).result with
    | none => (none, cached)
    | some sid => (some sid, some ⟨sid, now + sessionCacheDurationMs⟩)

end Session

/-! ## Theorems for the claims -/

/-- Claim C6: shouldRetry(status, attempt, maxRetries) is true iff
(status = 0 or 500 ≤ status < 600) and attempt < maxRetries; in
particular it is false whenever attempt ≥ maxRetries regardless of
status, and false for every 4xx status and every 2xx success status
regardless of remaining budget. -/
theorem shouldRetry_spec (status attempt maxRetries : Int) :
    (Retry.shouldRetry status attempt maxRetries = true ↔
      ((status = 0 ∨ (500 ≤ status ∧ status < 600)) ∧ attempt < maxRetries)) ∧
    (attempt ≥ maxRetries → Retry.shouldRetry status attempt maxRetries = false) ∧
    (400 ≤ status ∧ status < 500 →
      Retry.shouldRetry status attempt maxRetries = false) ∧
    (200 ≤ status ∧ status < 300 →
      Retry.shouldRetry status attempt maxRetries = false) := by
  unfold Retry.shouldRetry
  refine ⟨?_, ?_, ?_, ?_⟩ <;> split <;> simp <;> omega

/-- Witness for C6 at concrete inputs: an exhausted budget blocks a
retryable status, and a 4xx status is never retried. -/
theorem shouldRetry_spec_witness :
    Retry.shouldRetry 503 5 3 = false ∧ Retry.shouldRetry 404 0 3 = false :=
  ⟨(shouldRetry_spec 503 5 3).2.1 (by decide),
   (shouldRetry_spec 404 0 3).2.2.1 (by omega)⟩

/-- Claim C7 counterexample: the claim says fractional attempt inputs are
treated as 0, but calculateBackoff floors them (Math.max(0,
Math.floor(attempt))), so attempt = 2.5 yields the attempt-2 delay 4000,
not the attempt-0 delay 1000. -/
theorem calculateBackoff_fractional_not_zero :
    Retry.calculateBackoff (5 / 2 : ℚ) 1000 10000 ≠
      Retry.calculateBackoff 0 1000 10000 := by
  have hf : ⌊(5 / 2 : ℚ)⌋ = 2 := by norm_num [Int.floor_eq_iff]
  simp [Retry.calculateBackoff, mathMinQ, mathMaxI, hf]
  norm_num

/-- Claim C7 as amended: for every base and cap and every integer
attempt ≥ 0, calculateBackoff(attempt, base, max) = min(base·2^attempt,
max); a negative attempt is treated as 0; a fractional attempt is floored
(toward −∞) and then clamped at 0, rather than being treated as 0; and
the backoff table for (base 1000, cap 10000) is 1000, 2000, 4000, 8000,
10000 (capped).  Totality (never fails) holds because calculateBackoff
is a total function. -/
theorem calculateBackoff_spec :
    (∀ baseDelay maxDelay : ℚ, ∀ n : ℕ,
      Retry.calculateBackoff n baseDelay maxDelay =
        min (baseDelay * 2 ^ n) maxDelay) ∧
    (∀ baseDelay maxDelay : ℚ, ∀ q : ℚ, q < 0 →
      Retry.calculateBackoff q baseDelay maxDelay =
        Retry.calculateBackoff 0 baseDelay maxDelay) ∧
    (∀ baseDelay maxDelay : ℚ, ∀ q : ℚ,
      Retry.calculateBackoff q baseDelay maxDelay =
        min (baseDelay * 2 ^ (⌊q⌋.toNat)) maxDelay) ∧
    Retry.calculateBackoff 0 1000 10000 = 1000 ∧
    Retry.calculateBackoff 1 1000 10000 = 2000 ∧
    Retry.calculateBackoff 2 1000 10000 = 4000 ∧
    Retry.calculateBackoff 3 1000 10000 = 8000 ∧
    Retry.calculateBackoff 4 1000 10000 = 10000 := by
  have hminQ : ∀ a b : ℚ, mathMinQ a b = min a b := by
    intro a b; rw [mathMinQ, min_def]
  have hmaxNat : ∀ x : Int, (mathMaxI 0 x).toNat = x.toNat := by
    intro x; rw [mathMaxI]; split <;> omega
  have hgen : ∀ baseDelay maxDelay : ℚ, ∀ q : ℚ,
      Retry.calculateBackoff q baseDelay maxDelay =
        min (baseDelay * 2 ^ (⌊q⌋.toNat)) maxDelay := by
    intro b m q
    rw [Retry.calculateBackoff, hminQ, hmaxNat]
  refine ⟨?_, ?_, hgen, ?_, ?_, ?_, ?_, ?_⟩
  · intro b m n
    rw [hgen, Int.floor_natCast, Int.toNat_natCast]
  · intro b m q hq
    rw [hgen, hgen]
    have h1 : ⌊q⌋.toNat = 0 := by
      have := Int.floor_nonpos (le_of_lt hq)
      omega
    have h2 : (⌊(0 : ℚ)⌋).toNat = 0 := by norm_num
    rw [h1, h2]
  all_goals
    simp [hgen]
    norm_num

/-- Witness for C7's amended theorem at concrete input: a negative
attempt (-1) yields the attempt-0 delay. -/
theorem calculateBackoff_spec_witness :
    Retry.calculateBackoff (-1 : ℚ) 1000 10000 =
      Retry.calculateBackoff 0 1000 10000 :=
  calculateBackoff_spec.2.1 1000 10000 (-1) (by norm_num)

/-- The backoff table a fetchWithRetry run with parameters base/max walks
through: entry i is the sleep before the (i+1)-th retry. -/
def retryDelayTable (baseDelay maxDelay : ℚ) (n : Nat) : List ℚ :=
  (List.range n).map (fun i => Retry.calculateBackoff (i : ℚ) baseDelay maxDelay)

/-- Loop invariant of fetchWithRetryGo: entering iteration `attempt` with
fuel filling up to maxRetries + 1 total iterations, `attempt` fetches
already performed and the first `attempt - 1` backoff delays already
slept, the final trace performs at most maxRetries + 1 fetches and its
delay sequence is exactly the backoff table up to attempts - 1. -/
theorem retryDelayTable_succ (baseDelay maxDelay : ℚ) (n : Nat) :
    retryDelayTable baseDelay maxDelay (n + 1) =
      retryDelayTable baseDelay maxDelay n ++
        [Retry.calculateBackoff (n : ℚ) baseDelay maxDelay] := by
  simp [retryDelayTable, List.range_succ]

theorem fetchWithRetryGo_spec (oracle : Nat → Retry.FetchOutcome)
    (maxRetries : Nat) (baseDelay maxDelay : ℚ) :
    ∀ fuel attempt, attempt + fuel = maxRetries + 1 →
      (Retry.fetchWithRetryGo oracle maxRetries baseDelay maxDelay attempt fuel
          attempt (retryDelayTable baseDelay maxDelay (attempt - 1))).attempts ≤
        maxRetries + 1 ∧
      (Retry.fetchWithRetryGo oracle maxRetries baseDelay maxDelay attempt fuel
          attempt (retryDelayTable baseDelay maxDelay (attempt - 1))).delays =
        retryDelayTable baseDelay maxDelay
          ((Retry.fetchWithRetryGo oracle maxRetries baseDelay maxDelay attempt
              fuel attempt (retryDelayTable baseDelay maxDelay (attempt - 1))).attempts - 1) := by
  intro fuel
  induction fuel with
  | zero =>
      intro attempt h
      constructor
      · simp [Retry.fetchWithRetryGo]; omega
      · simp [Retry.fetchWithRetryGo]
  | succ f ih =>
      intro attempt h
      have hstep : (if attempt > 0
          then retryDelayTable baseDelay maxDelay (attempt - 1) ++
            [Retry.calculateBackoff ((attempt - 1 : Nat) : ℚ) baseDelay maxDelay]
          else retryDelayTable baseDelay maxDelay (attempt - 1)) =
          retryDelayTable baseDelay maxDelay ((attempt + 1) - 1) := by
        rcases attempt with _ | k
        · simp
        · have hpos : k + 1 > 0 := by omega
          simp only [if_pos hpos, Nat.add_sub_cancel]
          exact (retryDelayTable_succ baseDelay maxDelay k).symm
      have hrec := ih (attempt + 1) (by omega)
      rw [Retry.fetchWithRetryGo]
      simp only [hstep]
      rcases hor : oracle attempt with status | _
      · by_cases h1 : (200 ≤ status ∧ status < 300) ∨ (400 ≤ status ∧ status < 500)
        · simp only [if_pos h1]
          refine ⟨by omega, ?_⟩
          simp
        · simp only [if_neg h1]
          by_cases h2 : ¬ Retry.shouldRetry status attempt maxRetries = true
          · simp only [if_pos h2]
            refine ⟨by omega, ?_⟩
            simp
          · simp only [if_neg h2]
            exact hrec
      · by_cases h2 : ¬ Retry.shouldRetry 0 attempt maxRetries = true
        · simp only [if_pos h2]
          refine ⟨by omega, ?_⟩
          simp
        · simp only [if_neg h2]
          exact hrec

/-- Claim C5: every fetchWithRetry run performs at most maxRetries + 1
attempts (calls of fetch), and the delays slept are exactly
calculateBackoff 0, calculateBackoff 1, ... : before the n-th retry
(n ≥ 1) the controller sleeps calculateBackoff (n - 1), so the first
retry waits calculateBackoff 0. -/
theorem fetchWithRetry_spec (oracle : Nat → Retry.FetchOutcome)
    (maxRetries : Nat) (baseDelay maxDelay : ℚ) :
    (Retry.fetchWithRetry oracle maxRetries baseDelay maxDelay).attempts ≤
      maxRetries + 1 ∧
    (Retry.fetchWithRetry oracle maxRetries baseDelay maxDelay).delays =
      (List.range
          ((Retry.fetchWithRetry oracle maxRetries baseDelay maxDelay).attempts - 1)).map
        (fun i => Retry.calculateBackoff (i : ℚ) baseDelay maxDelay) := by
  have h := fetchWithRetryGo_spec oracle maxRetries baseDelay maxDelay
    (maxRetries + 1) 0 (by omega)
  have h0 : retryDelayTable baseDelay maxDelay (0 - 1) = [] := by
    simp [retryDelayTable]
  rw [h0] at h
  exact ⟨h.1, h.2⟩

/-- An upstream whose Clerk credential fetch throws on every attempt. -/
def alwaysFailClerk : Nat → Session.ClerkOutcome :=
  fun _ => Session.ClerkOutcome.fail

/-- An upstream whose fetch throws a network error on every attempt. -/
def alwaysNetError : Nat → Retry.FetchOutcome :=
  fun _ => Retry.FetchOutcome.netError

/-- Claim C4 counterexample: with the same configuration (maxRetries = 3,
baseDelay = 1000, maxDelay = 10000) and an upstream that fails on every
attempt, the session cache's credential fetch does NOT perform the same
number of attempts and the same delay sequence as the Retry Controller:
fetchSessionIdFromClerk performs 3 attempts, fetchWithRetry performs 4. -/
theorem sessionFetch_trace_differs :
    ¬ ((Session.fetchSessionIdFromClerk alwaysFailClerk).attempts =
         (Retry.fetchWithRetry alwaysNetError 3 1000 10000).attempts ∧
       (Session.fetchSessionIdFromClerk alwaysFailClerk).delays =
         (Retry.fetchWithRetry alwaysNetError 3 1000 10000).delays) := by
  intro h
  have h1 : (Session.fetchSessionIdFromClerk alwaysFailClerk).attempts = 3 := rfl
  have h2 : (Retry.fetchWithRetry alwaysNetError 3 1000 10000).attempts = 4 := rfl
  rw [h1, h2] at h
  exact absurd h.1 (by decide)

/-- Claim C4 as amended: fetchSessionIdFromClerk does not route through
fetchWithRetry; under the shared configuration (maxRetries = 3,
baseDelay = 1000 ms, maxDelay = 10000 ms) and an always-failing upstream
it performs maxRetries = 3 attempts with the backoff delays delay(0),
delay(1) between them and then surfaces the failure — one attempt and one
delay fewer than fetchWithRetry, which performs maxRetries + 1 = 4
attempts with delays delay(0), delay(1), delay(2). -/
theorem sessionFetch_vs_retryController_traces :
    (Session.fetchSessionIdFromClerk alwaysFailClerk).attempts = 3 ∧
    (Session.fetchSessionIdFromClerk alwaysFailClerk).delays =
      [Session.calculateBackoff 0, Session.calculateBackoff 1] ∧
    (Session.fetchSessionIdFromClerk alwaysFailClerk).result = none ∧
    (Retry.fetchWithRetry alwaysNetError 3 1000 10000).attempts = 4 ∧
    (Retry.fetchWithRetry alwaysNetError 3 1000 10000).delays =
      [Retry.calculateBackoff 0 1000 10000, Retry.calculateBackoff 1 1000 10000,
       Retry.calculateBackoff 2 1000 10000] ∧
    (Retry.fetchWithRetry alwaysNetError 3 1000 10000).result = none := by
  refine ⟨rfl, ?_, rfl, rfl, ?_, rfl⟩
  · simp [Session.fetchSessionIdFromClerk, Session.fetchSessionIdFromClerkGo,
      Session.retryMaxRetries, alwaysFailClerk]
  · simp [Retry.fetchWithRetry, Retry.fetchWithRetryGo, Retry.shouldRetry,
      alwaysNetError]

/-- Claim C8: session cache refresh is atomic on failure.  Whenever
getSessionId takes the refresh path (forced refresh, empty cache, or an
entry whose expiry has passed) and the upstream credential fetch
exhausts its attempts and fails, the error is propagated and the prior
cached entry — value and expiry — is returned unchanged. -/
theorem getSessionId_failed_refresh_keeps_cache
    (oracle : Nat → Session.ClerkOutcome) (now : Int) (forceRefresh : Bool)
    (cached : Option Session.SessionCache)
    (hmiss : forceRefresh = true ∨ cached = none ∨
      ∃ c, cached = some c ∧ c.expiresAt ≤ now)
    (hfail : (Session.fetchSessionIdFromClerk oracle).result = none) :
    Session.getSessionId oracle now forceRefresh cached = (none, cached) := by
  rcases hmiss with h | h | ⟨c, hc, hexp⟩
  · subst h
    rw [Session.getSessionId.eq_def]
    simp [hfail]
  · subst h
    rw [Session.getSessionId.eq_def]
    simp [hfail]
  · subst hc
    rw [Session.getSessionId.eq_def]
    simp [hfail, Int.not_lt.mpr hexp]

/-- Witness for C8 at a concrete input: a stale entry survives a failed
forced-expiry refresh against an always-failing upstream. -/
theorem getSessionId_failed_refresh_keeps_cache_witness :
    Session.getSessionId (fun _ => Session.ClerkOutcome.fail) 200 false
      (some ⟨"old", 100⟩) = (none, some ⟨"old", 100⟩) :=
  getSessionId_failed_refresh_keeps_cache (fun _ => Session.ClerkOutcome.fail)
    200 false (some ⟨"old", 100⟩)
    (Or.inr (Or.inr ⟨⟨"old", 100⟩, rfl, by decide⟩)) rfl

/-- Claim C10: parseClientToken never throws — it is a total function
into ClientTokenPayload — and every malformed input maps to the empty
payload: a null/undefined token, the empty string, a string that does
not split into exactly three dot-separated parts, a payload part whose
base64url decoding fails (atob throws), and a decoded payload that is
not valid JSON (JSON.parse throws). -/
theorem parseClientToken_malformed_spec :
    (∀ ab pj, Session.parseClientToken ab pj none = ⟨"", ""⟩) ∧
    (∀ ab pj, Session.parseClientToken ab pj (some "") = ⟨"", ""⟩) ∧
    (∀ ab pj t, (t.splitOn (".")).length ≠ 3 →
      Session.parseClientToken ab pj (some t) = ⟨"", ""⟩) ∧
    (∀ ab pj t,
      ab (Session.paddedPayload (((t.splitOn (".")))[1]?.getD "")) = none →
      Session.parseClientToken ab pj (some t) = ⟨"", ""⟩) ∧
    (∀ ab pj t s,
      ab (Session.paddedPayload (((t.splitOn (".")))[1]?.getD "")) = some s →
      pj s = none →
      Session.parseClientToken ab pj (some t) = ⟨"", ""⟩) := by
  refine ⟨fun ab pj => rfl, fun ab pj => rfl, ?_, ?_, ?_⟩
  · intro ab pj t hlen
    simp [Session.parseClientToken, hlen]
  · intro ab pj t hab
    simp [Session.parseClientToken, hab]
  · intro ab pj t s hab hpj
    simp [Session.parseClientToken, hab, hpj]

/-- Witness for C10 at concrete inputs: a token whose payload part fails
base64url decoding, and one whose decoded payload fails JSON parsing,
both yield the empty payload. -/
theorem parseClientToken_malformed_spec_witness :
    Session.parseClientToken (fun _ => none) (fun _ => none)
        (some "a.b.c") = ⟨"", ""⟩ ∧
    Session.parseClientToken (fun _ => some "notjson") (fun _ => none)
        (some "a.b.c") = ⟨"", ""⟩ :=
  ⟨parseClientToken_malformed_spec.2.2.2.1 (fun _ => none) (fun _ => none)
      ("a.b.c") rfl,
   parseClientToken_malformed_spec.2.2.2.2 (fun _ => some "notjson")
      (fun _ => none) ("a.b.c") ("notjson") rfl rfl⟩

/-- Running an event list split in two is running the two halves in
sequence. -/
theorem runOps_append (cfg : RQueue.QueueConfig) (ops₁ ops₂ : List RQueue.QOp)
    (s : RQueue.QueueState) :
    RQueue.runOps cfg (ops₁ ++ ops₂) s =
      RQueue.runOps cfg ops₂ (RQueue.runOps cfg ops₁ s) := by
  simp [RQueue.runOps, List.foldl_append]

/-- enqueue preserves the FIFO bookkeeping equation: everything ever
appended to the pending array is what was promoted out of it followed by
what still sits in it. -/
theorem enqueue_fifoInv (cfg : RQueue.QueueConfig) (s : RQueue.QueueState)
    (h : s.appendedOrder = s.promotedOrder ++ s.pending) :
    (RQueue.enqueue cfg s).2.appendedOrder =
      (RQueue.enqueue cfg s).2.promotedOrder ++ (RQueue.enqueue cfg s).2.pending := by
  rw [RQueue.enqueue]
  split
  · exact h
  · split
    · exact h
    · simp only
      rw [h, List.append_assoc]

/-- processNext preserves the FIFO bookkeeping equation. -/
theorem processNext_fifoInv (cfg : RQueue.QueueConfig) (s : RQueue.QueueState)
    (h : s.appendedOrder = s.promotedOrder ++ s.pending) :
    (RQueue.processNext cfg s).appendedOrder =
      (RQueue.processNext cfg s).promotedOrder ++ (RQueue.processNext cfg s).pending := by
  rw [RQueue.processNext]
  split
  · exact h
  · split
    · exact h
    · rename_i heq
      simp only
      rw [h, heq, List.append_assoc]
      simp

/-- complete preserves the FIFO bookkeeping equation. -/
theorem complete_fifoInv (cfg : RQueue.QueueConfig) (s : RQueue.QueueState)
    (h : s.appendedOrder = s.promotedOrder ++ s.pending) :
    (RQueue.complete cfg s).appendedOrder =
      (RQueue.complete cfg s).promotedOrder ++ (RQueue.complete cfg s).pending :=
  processNext_fifoInv cfg _ h

/-- The FIFO bookkeeping equation holds in every reachable state. -/
theorem runOps_fifoInv (cfg : RQueue.QueueConfig) (ops : List RQueue.QOp) :
    ∀ s : RQueue.QueueState,
      s.appendedOrder = s.promotedOrder ++ s.pending →
      (RQueue.runOps cfg ops s).appendedOrder =
        (RQueue.runOps cfg ops s).promotedOrder ++
          (RQueue.runOps cfg ops s).pending := by
  induction ops with
  | nil => intro s h; exact h
  | cons op rest ih =>
      intro s h
      cases op with
      | enq => exact ih _ (enqueue_fifoInv cfg s h)
      | cpl => exact ih _ (complete_fifoInv cfg s h)

/-- enqueue keeps the pending array within maxQueueSize: the append
branch is guarded by the capacity check. -/
theorem enqueue_pending_le (cfg : RQueue.QueueConfig) (s : RQueue.QueueState)
    (h : s.pending.length ≤ cfg.maxQueueSize) :
    (RQueue.enqueue cfg s).2.pending.length ≤ cfg.maxQueueSize := by
  rw [RQueue.enqueue]
  split
  · exact h
  · rename_i hfull
    split
    · exact h
    · simp only [List.length_append, List.length_cons, List.length_nil]
      omega

/-- complete only shortens or keeps the pending array. -/
theorem complete_pending_le (cfg : RQueue.QueueConfig) (s : RQueue.QueueState)
    (h : s.pending.length ≤ cfg.maxQueueSize) :
    (RQueue.complete cfg s).pending.length ≤ cfg.maxQueueSize := by
  rw [RQueue.complete, RQueue.processNext]
  split
  · exact h
  · split
    · exact h
    · rename_i heq
      simp only
      rw [show RQueue.QueueState.pending
            { s with activeCount := s.activeCount - 1 } = s.pending from rfl,
          heq] at h
      simp only [List.length_cons] at h
      omega

/-- Appending one more index to an initial segment of the positive
naturals. -/
theorem range'_one_concat (n : Nat) :
    List.range' 1 n ++ [1 + n] = List.range' 1 (n + 1) := by
  have h : List.range' 1 (n + 1) = List.range' 1 n ++ [1 + 1 * n] :=
    List.range'_concat 1 n
  simpa using h.symm

/-- With maxConcurrent = 1, the first of k consecutive enqueues starts
task 0 immediately and the rest pile up in the pending array in id
order. -/
theorem runOps_enq_phase (N : Nat) :
    ∀ k, 1 ≤ k → k ≤ N →
      RQueue.runOps ⟨1, N⟩ (List.replicate k RQueue.QOp.enq) RQueue.initState =
        ⟨List.range' 1 (k - 1), 1, k, List.range' 1 (k - 1), [], [0]⟩ := by
  intro k
  induction k with
  | zero => intro h; omega
  | succ n ih =>
      intro _ hN
      rcases Nat.eq_zero_or_pos n with h0 | hn
      · subst h0
        have hN1 : ¬ ((RQueue.initState).pending.length ≥ N) := by
          simp [RQueue.initState]; omega
        simp [RQueue.runOps, RQueue.enqueue, RQueue.initState, hN1,
          show ¬ N = 0 by omega]
      · rw [List.replicate_succ', runOps_append, ih hn (by omega)]
        have hlen : (List.range' 1 (n - 1)).length = n - 1 := by simp
        have hfull : ¬ ((⟨List.range' 1 (n - 1), 1, n, List.range' 1 (n - 1),
            [], [0]⟩ : RQueue.QueueState).pending.length ≥ N) := by
          simp only [hlen]
          omega
        have hact : ¬ ((1 : Nat) < 1) := by omega
        simp only [RQueue.runOps, List.foldl_cons, List.foldl_nil,
          RQueue.enqueue, if_neg hfull, if_neg hact]
        simp only [Nat.succ_sub_one]
        have hconcat : List.range' 1 (n - 1) ++ [n] = List.range' 1 n := by
          have h1 : (n - 1) + 1 = n := by omega
          have h2 : 1 + (n - 1) = n := by omega
          rw [← h1, ← range'_one_concat, h2, h1]
        simp [hconcat]

/-- With maxConcurrent = 1, one active task and pending list l, each of
the next l.length completions promotes the head of the pending array, in
order. -/
theorem runOps_drain_phase (N : Nat) :
    ∀ (l : List Nat) (s : RQueue.QueueState),
      s.pending = l → s.activeCount = 1 →
      RQueue.runOps ⟨1, N⟩ (List.replicate l.length RQueue.QOp.cpl) s =
        { s with
          pending := [],
          promotedOrder := s.promotedOrder ++ l,
          startedOrder := s.startedOrder ++ l } := by
  intro l
  induction l with
  | nil =>
      intro s hp ha
      cases s with
      | mk p a ni ap pr st =>
          simp only [RQueue.QueueState.pending] at hp
          subst hp
          simp [RQueue.runOps]
  | cons a rest ih =>
      intro s hp ha
      have hcpl : RQueue.complete ⟨1, N⟩ s =
          { s with
            pending := rest,
            activeCount := 1,
            promotedOrder := s.promotedOrder ++ [a],
            startedOrder := s.startedOrder ++ [a] } := by
        rw [RQueue.complete, RQueue.processNext]
        have hcond : ¬ (({ s with activeCount := s.activeCount - 1
            } : RQueue.QueueState).pending.length = 0 ∨
            ({ s with activeCount := s.activeCount - 1
            } : RQueue.QueueState).activeCount ≥ 1) := by
          simp [hp, ha]
        rw [if_neg hcond]
        simp only [hp, ha]
      have hstep : RQueue.runOps ⟨1, N⟩
          (List.replicate (a :: rest).length RQueue.QOp.cpl) s =
          RQueue.runOps ⟨1, N⟩ (List.replicate rest.length RQueue.QOp.cpl)
            (RQueue.complete ⟨1, N⟩ s) := by
        simp only [List.length_cons, List.replicate_succ]
        rfl
      rw [hstep, hcpl, ih _ rfl rfl]
      simp [ha]

/-- The pending array never exceeds maxQueueSize in any reachable
state. -/
theorem runOps_pending_le (cfg : RQueue.QueueConfig) (ops : List RQueue.QOp) :
    ∀ s : RQueue.QueueState,
      s.pending.length ≤ cfg.maxQueueSize →
      (RQueue.runOps cfg ops s).pending.length ≤ cfg.maxQueueSize := by
  induction ops with
  | nil => intro s h; exact h
  | cons op rest ih =>
      intro s h
      cases op with
      | enq => exact ih _ (enqueue_pending_le cfg s h)
      | cpl => exact ih _ (complete_pending_le cfg s h)

/-- Claim C1: admission queue dispatch is strict FIFO.  In every
reachable state of a RequestQueue the ids ever appended to the pending
array equal the ids promoted out of it by processNext (in promotion
order) followed by the ids still pending — so tasks leave the pending
sequence exactly in the order enqueue appended them.  Moreover with
maxConcurrent = 1, for every N ≥ 1, N tasks enqueued in order and then
allowed to complete start executing exactly in enqueue order
0, 1, ..., N-1. -/
theorem queue_dispatch_fifo :
    (∀ (cfg : RQueue.QueueConfig) (ops : List RQueue.QOp),
      (RQueue.runOps cfg ops RQueue.initState).appendedOrder =
        (RQueue.runOps cfg ops RQueue.initState).promotedOrder ++
          (RQueue.runOps cfg ops RQueue.initState).pending) ∧
    (∀ N : Nat, 1 ≤ N →
      (RQueue.runOps ⟨1, N⟩
          (List.replicate N RQueue.QOp.enq ++ List.replicate N RQueue.QOp.cpl)
          RQueue.initState).startedOrder = List.range N) := by
  constructor
  · intro cfg ops
    exact runOps_fifoInv cfg ops RQueue.initState rfl
  · intro N hN
    rw [runOps_append, runOps_enq_phase N N hN le_rfl]
    have hrepl : List.replicate N RQueue.QOp.cpl =
        List.replicate (N - 1) RQueue.QOp.cpl ++ [RQueue.QOp.cpl] := by
      rw [← List.replicate_succ']
      congr 1
      omega
    rw [hrepl, runOps_append]
    have hdrain := runOps_drain_phase N (List.range' 1 (N - 1))
      ⟨List.range' 1 (N - 1), 1, N, List.range' 1 (N - 1), [], [0]⟩ rfl rfl
    have hlen : (List.range' 1 (N - 1)).length = N - 1 := by simp
    rw [hlen] at hdrain
    rw [hdrain]
    simp only [RQueue.runOps, List.foldl_cons, List.foldl_nil,
      RQueue.complete, RQueue.processNext]
    simp only [ite_self, List.nil_append]
    rw [List.range_eq_range', show N = (N - 1) + 1 by omega, List.range'_succ]
    rfl

/-- Witness for C1's sequential part at N = 3: three tasks through a
single-slot queue start in enqueue order. -/
theorem queue_dispatch_fifo_witness :
    (RQueue.runOps ⟨1, 3⟩
        (List.replicate 3 RQueue.QOp.enq ++ List.replicate 3 RQueue.QOp.cpl)
        RQueue.initState).startedOrder = List.range 3 :=
  queue_dispatch_fifo.2 3 (by decide)

/-- Claim C2: in every reachable queue state, enqueue fails with
QueueFullError — before any state change — exactly when the pending
count equals maxQueueSize, and with {maxConcurrent := 2, maxQueueSize := 3}
five consecutive enqueues of non-completing tasks are accepted (ending
with 2 active and 3 pending) while the sixth is rejected. -/
theorem enqueue_capacity_spec :
    (∀ (cfg : RQueue.QueueConfig) (ops : List RQueue.QOp),
      ((RQueue.enqueue cfg (RQueue.runOps cfg ops RQueue.initState)).1 =
          some ⟨"Queue is full"⟩ ↔
        (RQueue.runOps cfg ops RQueue.initState).pending.length =
          cfg.maxQueueSize) ∧
      ((RQueue.runOps cfg ops RQueue.initState).pending.length =
          cfg.maxQueueSize →
        (RQueue.enqueue cfg (RQueue.runOps cfg ops RQueue.initState)).2 =
          RQueue.runOps cfg ops RQueue.initState)) ∧
    (∀ k, k < 5 →
      (RQueue.enqueue ⟨2, 3⟩
          (RQueue.runOps ⟨2, 3⟩ (List.replicate k RQueue.QOp.enq)
            RQueue.initState)).1 = none) ∧
    (RQueue.runOps ⟨2, 3⟩ (List.replicate 5 RQueue.QOp.enq)
        RQueue.initState).activeCount = 2 ∧
    (RQueue.runOps ⟨2, 3⟩ (List.replicate 5 RQueue.QOp.enq)
        RQueue.initState).pending.length = 3 ∧
    (RQueue.enqueue ⟨2, 3⟩
        (RQueue.runOps ⟨2, 3⟩ (List.replicate 5 RQueue.QOp.enq)
          RQueue.initState)).1 = some ⟨"Queue is full"⟩ := by
  refine ⟨?_, by decide, by decide, by decide, by decide⟩
  intro cfg ops
  have hle := runOps_pending_le cfg ops RQueue.initState
    (by simp [RQueue.initState])
  constructor
  · rw [RQueue.enqueue]
    by_cases h : (RQueue.runOps cfg ops RQueue.initState).pending.length ≥
        cfg.maxQueueSize
    · rw [if_pos h]
      have heq : (RQueue.runOps cfg ops RQueue.initState).pending.length =
          cfg.maxQueueSize := by omega
      simp [heq]
    · rw [if_neg h]
      split <;> simp <;> omega
  · intro hfull
    rw [RQueue.enqueue, if_pos (by omega)]

/-- Witness for C2's scenario part at k = 4: the fifth enqueue into the
{maxConcurrent 2, maxQueueSize 3} queue is still accepted. -/
theorem enqueue_capacity_spec_witness :
    (RQueue.enqueue ⟨2, 3⟩
        (RQueue.runOps ⟨2, 3⟩ (List.replicate 4 RQueue.QOp.enq)
          RQueue.initState)).1 = none :=
  enqueue_capacity_spec.2.1 4 (by decide)

/-- Record one request at each instant of ts for the given client, in
order (repeated RateLimiter.recordRequest calls). -/
def recordMany (rl : RL.RateLimiter) (clientId : String) (ts : List Int) :
    RL.RateLimiter :=
  ts.foldl (fun rl t => RL.recordRequest rl clientId t) rl

/-- Map.get after Map.set of the same key. -/
theorem mapGet_mapSet_same (k : String) (v : List Int) :
    ∀ m : RL.RequestMap, RL.mapGet k (RL.mapSet k v m) = some v := by
  intro m
  induction m with
  | nil => simp [RL.mapSet, RL.mapGet]
  | cons kv rest ih =>
      rw [RL.mapSet]
      split
      · rw [RL.mapGet, if_pos rfl]
      · rename_i hne
        rw [RL.mapGet, if_neg hne]
        exact ih

/-- Pruning at instant t keeps a window whose members are all newer than
now - windowMs, provided t ≤ now. -/
theorem filter_window_keep (w now t : Int) (l : List Int)
    (h : ∀ x ∈ l, now - w < x) (ht : t ≤ now) :
    l.filter (fun r => t - w < r) = l := by
  rw [List.filter_eq_self]
  intro x hx
  have := h x hx
  simp only [decide_eq_true_eq]
  omega

/-- Folding recordRequest over in-window instants appends them, in order,
to the client's stored window. -/
theorem recordMany_spec (cfg : RL.RateLimitConfig) (c : String) (now : Int)
    (hen : cfg.enabled = true) :
    ∀ (ts : List Int) (rl : RL.RateLimiter) (l : List Int),
      rl.config = cfg →
      (RL.mapGet c rl.requests).getD [] = l →
      (∀ x ∈ l, now - cfg.windowMs < x) →
      (∀ t ∈ ts, now - cfg.windowMs < t ∧ t ≤ now) →
      (recordMany rl c ts).config = cfg ∧
      (RL.mapGet c (recordMany rl c ts).requests).getD [] = l ++ ts := by
  intro ts
  induction ts with
  | nil =>
      intro rl l hcfg hget _ _
      exact ⟨hcfg, by simpa [recordMany] using hget⟩
  | cons t rest ih =>
      intro rl l hcfg hget hl hts
      have hrec : RL.recordRequest rl c t =
          { rl with requests := RL.mapSet c (l ++ [t]) rl.requests } := by
        rw [RL.recordRequest]
        rw [if_neg (by rw [hcfg, hen]; simp)]
        simp only [hget, hcfg,
          filter_window_keep cfg.windowMs now t l hl (hts t (by simp)).2]
      have hstep : recordMany rl c (t :: rest) =
          recordMany (RL.recordRequest rl c t) c rest := rfl
      rw [hstep, hrec]
      have hres := ih { rl with requests := RL.mapSet c (l ++ [t]) rl.requests }
        (l ++ [t]) hcfg
        (by rw [mapGet_mapSet_same]; rfl)
        (by
          intro x hx
          rcases List.mem_append.mp hx with hx | hx
          · exact hl x hx
          · have := (hts t (by simp)).1
            simp at hx
            omega)
        (fun t₂ ht₂ => hts t₂ (by simp [ht₂]))
      refine ⟨hres.1, ?_⟩
      rw [hres.2, List.append_assoc]
      rfl

/-- Claim C3: for an enabled rate limiter, after a fresh client records
exactly maxRequests requests inside the current window, checkLimit
returns allowed = false, remaining = 0 and retryAfter =
ceil((oldestRetainedTimestamp + windowMs - now) / 1000) floored at 1
second; after k < maxRequests records it returns allowed = true with
remaining = maxRequests - k. -/
theorem checkLimit_after_records (cfg : RL.RateLimitConfig) (c : String)
    (now : Int) (ts : List Int)
    (hen : cfg.enabled = true)
    (hwin : ∀ t ∈ ts, now - cfg.windowMs < t ∧ t ≤ now) :
    ((ts.length : Int) = cfg.maxRequests →
      ∀ t0 rest, ts = t0 :: rest →
        (RL.checkLimit (recordMany ⟨[], cfg⟩ c ts) c now).1 =
          ⟨false, some (mathMaxI 1 (RL.ceilDivMs (t0 + cfg.windowMs - now))), 0⟩) ∧
    ((ts.length : Int) < cfg.maxRequests →
      (RL.checkLimit (recordMany ⟨[], cfg⟩ c ts) c now).1 =
        ⟨true, none, cfg.maxRequests - ts.length⟩) := by
  have hspec := recordMany_spec cfg c now hen ts ⟨[], cfg⟩ [] rfl rfl
    (by simp) hwin
  obtain ⟨hcfg, hget⟩ := hspec
  rw [List.nil_append] at hget
  have hfilter : ts.filter (fun r => now - cfg.windowMs < r) = ts :=
    filter_window_keep cfg.windowMs now now ts (fun x hx => (hwin x hx).1)
      le_rfl
  constructor
  · intro hfull t0 rest hts
    rw [RL.checkLimit]
    rw [if_neg (by rw [hcfg, hen]; simp)]
    simp only [hget, hcfg, hfilter]
    rw [if_pos (by omega)]
    rw [hts]
    rfl
  · intro hlt
    rw [RL.checkLimit]
    rw [if_neg (by rw [hcfg, hen]; simp)]
    simp only [hget, hcfg, hfilter]
    rw [if_neg (by omega)]
    have hrem : mathMaxI 0 (cfg.maxRequests - (ts.length : Int)) =
        cfg.maxRequests - (ts.length : Int) := by
      rw [mathMaxI, if_pos (by omega)]
    rw [hrem]

/-- Witness for C3 at a concrete input: five in-window records against
{windowMs 60000, maxRequests 5} deny the next check with the computed
retry hint. -/
theorem checkLimit_after_records_witness :
    (RL.checkLimit (recordMany ⟨[], ⟨true, 60000, 5⟩⟩ ("c1")
        [10, 20, 30, 40, 50]) ("c1") 60).1 =
      ⟨false, some (mathMaxI 1 (RL.ceilDivMs (10 + 60000 - 60))), 0⟩ :=
  (checkLimit_after_records ⟨true, 60000, 5⟩ ("c1") 60 [10, 20, 30, 40, 50]
      rfl (by decide)).1 (by decide) 10 [20, 30, 40, 50] rfl

/-- Claim C9: checkLimit is read-only.  It returns the limiter state
unchanged — the whole per-client map, including the queried client's
window, is exactly the receiver — and a second checkLimit at the same
instant returns the same result. -/
theorem checkLimit_readonly (rl : RL.RateLimiter) (c : String) (now : Int) :
    (RL.checkLimit rl c now).2 = rl ∧
    (RL.checkLimit (RL.checkLimit rl c now).2 c now).1 =
      (RL.checkLimit rl c now).1 := by
  have h2 : (RL.checkLimit rl c now).2 = rl := by
    rw [RL.checkLimit]
    split
    · rfl
    · dsimp only
      split <;> rfl
  exact ⟨h2, by rw [h2]⟩


